import Mathlib

/-!
Shallow embedding of the warehouse workflow of `src/agent_test1.py`.

The script stores inventory in a SQLite table `warehouse(product_id TEXT
PRIMARY KEY, product_name TEXT, quantity INTEGER)` and an audit table
`processing_results(id INTEGER PRIMARY KEY AUTOINCREMENT, ...)`.  We model
the `warehouse` table as a list of records in insertion order (SQLite scans
a rowid table in rowid order, which for this append-only workload is
insertion order, and `fetchone` takes the first row) and the
`processing_results` table as a list of rows together with the AUTOINCREMENT
sequence counter.

Python's `hash` used for `product_id` generation is seeded per process, so
it is modelled as an explicit function parameter `h : String → Int`.
-/

/-- SQLite `LIKE` matching (default `case_sensitive_like` off): `%` matches
any sequence of characters, `_` any single character, and ordinary
characters compare case-insensitively on ASCII (modelled with
`Char.toLower`, which folds exactly the ASCII range like SQLite does). -/
def likeM : List Char → List Char → Bool
  | [], s => s.isEmpty
  | '%' :: p, [] => likeM p []
  | '%' :: p, c :: s => likeM p (c :: s) || likeM ('%' :: p) s
  | '_' :: _, [] => false
  | '_' :: p, _ :: s => likeM p s
  | _ :: _, [] => false
  | a :: p, b :: s => (a.toLower == b.toLower) && likeM p s
termination_by p s => p.length + s.length

/-- The pattern `f"%{product_name}%"` built by `check_warehouse_stock`. -/
def likePattern (q : String) : List Char := '%' :: (q.data ++ ['%'])

/-- One row of the `warehouse` table. -/
structure InventoryRecord where
  product_id : String
  product_name : String
  quantity : Int
deriving Repr, DecidableEq

/-- The `warehouse` table, rows in insertion order. -/
abbrev Warehouse := List InventoryRecord

/-- The JSON object returned by `check_warehouse_stock`
(`available`/`product`/`quantity` fields). -/
structure StockCheck where
  available : Bool
  product : String
  quantity : Int
deriving Repr, DecidableEq

/-- `check_warehouse_stock(product_name)`: runs
`SELECT product_name, quantity FROM warehouse WHERE product_name LIKE ?`
with pattern `%product_name%` and `fetchone()`; if a row is found it reports
it as available, otherwise it reports the queried name unavailable with
quantity 0. -/
def check_warehouse_stock (product_name : String) (w : Warehouse) : StockCheck :=
  match w.find? (fun r => likeM (likePattern product_name) r.product_name.data) with
  | some r => ⟨true, r.product_name, r.quantity⟩
  | none => ⟨false, product_name, 0⟩

/-- The JSON object returned by `simulate_purchase`: it always has
`"success": True`, and its `"quantity"` field is the quantity passed in. -/
structure PurchaseResult where
  success : Bool
  product : String
  quantity : Int
deriving Repr, DecidableEq

/-- The `product_id` built on insert: `f"PROD_{hash(product_name)}"`, with
Python's per-process string hash abstracted as `h`. -/
def mkProductId (h : String → Int) (product_name : String) : String :=
  "PROD_" ++ toString (h product_name)

/-- `simulate_purchase(product_name, quantity)`: looks the name up by exact
equality (`WHERE product_name = ?`, `fetchone`); if a row exists, sets the
quantity of every row with that name to `existing + quantity` (the SQL
`UPDATE ... WHERE product_name = ?`), otherwise inserts a fresh row with id
`PROD_{hash(name)}` and the given quantity.  There is no validation of
`quantity`; the returned confirmation always succeeds and reports the input
quantity. -/
def simulate_purchase (h : String → Int) (product_name : String) (quantity : Int)
    (w : Warehouse) : Warehouse × PurchaseResult :=
  match w.find? (fun r => r.product_name == product_name) with
  | some r =>
      let new_quantity := r.quantity + quantity
      (w.map (fun r' =>
          if r'.product_name == product_name then
            { r' with quantity := new_quantity }
          else r'),
       ⟨true, product_name, quantity⟩)
  | none =>
      (w ++ [⟨mkProductId h product_name, product_name, quantity⟩],
       ⟨true, product_name, quantity⟩)

/-- Fold a sequence of `simulate_purchase` calls (name, quantity) over a
warehouse state; captures the reachable states of the store. -/
def applyPurchases (h : String → Int) (ps : List (String × Int)) (w : Warehouse) :
    Warehouse :=
  ps.foldl (fun acc p => (simulate_purchase h p.1 p.2 acc).1) w

/-- The stock stored under exactly the given name (first row by insertion
order; 0 when no row has that name), mirroring the exact-match `SELECT`
used by `simulate_purchase`. -/
def storedQty (product_name : String) (w : Warehouse) : Int :=
  match w.find? (fun r => r.product_name == product_name) with
  | some r => r.quantity
  | none => 0

/-- One row of the `processing_results` table. -/
structure ProcessingRecord where
  id : Nat
  pdf_filename : String
  extracted_text : String
  items_found : String
  purchase_actions : String
deriving Repr, DecidableEq

/-- The `processing_results` table: its rows plus the AUTOINCREMENT sequence
counter (SQLite's `sqlite_sequence` entry), which holds the largest id ever
assigned. -/
structure Ledger where
  seq : Nat
  rows : List ProcessingRecord
deriving Repr, DecidableEq

/-- The JSON object returned by `save_processing_result`
(`success`/`result_id`). -/
structure SaveResult where
  success : Bool
  result_id : Nat
deriving Repr, DecidableEq

/-- `save_processing_result(...)`: `INSERT` into `processing_results`; the
AUTOINCREMENT column assigns `seq + 1` as the new id, and `lastrowid` (the
id of the row just inserted) is returned as `result_id`. -/
def save_processing_result (pdf_filename extracted_text items_found purchase_actions : String)
    (L : Ledger) : Ledger × SaveResult :=
  let newId := L.seq + 1
  (⟨newId, L.rows ++ [⟨newId, pdf_filename, extracted_text, items_found, purchase_actions⟩]⟩,
   ⟨true, newId⟩)

/-- Invariant of the AUTOINCREMENT counter: every assigned id is at most the
sequence value.  Holds for the empty table and is preserved by inserts. -/
def LedgerInv (L : Ledger) : Prop := ∀ r ∈ L.rows, r.id ≤ L.seq

/-- ASCII-lowering of a character list (spec side of case-insensitivity). -/
def lowerChars (s : List Char) : List Char := s.map Char.toLower

/-- Executable "q occurs in s as a contiguous substring". -/
def containsSub (q s : List Char) : Bool :=
  s.tails.any (fun t => q.isPrefixOf t)

/-- True when the queried string uses no `LIKE` metacharacter. -/
def metaFree (q : List Char) : Bool :=
  q.all (fun c => !(c == '%') && !(c == '_'))

/-- Spec-side lookup, following the spec's words: case-insensitive substring
match of the queried name against `product_name`, first match in insertion
order; absent means unavailable with quantity 0. -/
def lookup_spec (product_name : String) (w : Warehouse) : StockCheck :=
  match w.find? (fun r =>
      containsSub (lowerChars product_name.data) (lowerChars r.product_name.data)) with
  | some r => ⟨true, r.product_name, r.quantity⟩
  | none => ⟨false, product_name, 0⟩

/-- A requested item descriptor `(name, quantity_needed)`. -/
structure RequestedItem where
  name : String
  quantity_needed : Int
deriving Repr, DecidableEq

/-- Modelled from the spec: StockReconciler (spec §4.3) is not implemented in
`src` — the decision "if NOT available or the quantity is insufficient, buy
it" is delegated to the LLM agent's prompt.  Per the spec: for each
requested item in input order, look up current stock via the store's lookup;
if the current quantity is below `quantity_needed` the item is in deficit by
the difference (the lookup reports quantity 0 when absent, giving the full
`quantity_needed`); satisfied items are omitted. -/
def reconcile (w : Warehouse) : List RequestedItem → List (String × Int)
  | [] => []
  | it :: rest =>
      let cur := (check_warehouse_stock it.name w).quantity
      if cur < it.quantity_needed then
        (it.name, it.quantity_needed - cur) :: reconcile w rest
      else
        reconcile w rest

/-- Workflow error kinds (spec §7). -/
inductive WfError where
  | EmptyRequest
  | InvalidQuantity
deriving Repr, DecidableEq

/-- Modelled from the spec: WorkflowRunner.run (spec §4.4) is not implemented
in `src` — `process_pdf` delegates orchestration to the LLM agent, and the
`EmptyRequest` validation is a spec policy decision "not present verbatim in
source".  Per the spec: validate `requested_items` is non-empty (fail with
`EmptyRequest`, no side effects, otherwise), reconcile, apply a purchase per
deficit item, and append one processing record to the ledger. -/
def run (h : String → Int) (source_document extracted_text : String)
    (requested_items : List RequestedItem) (w : Warehouse) (L : Ledger) :
    Except WfError ProcessingRecord × Warehouse × Ledger :=
  if requested_items.isEmpty then
    (Except.error WfError.EmptyRequest, w, L)
  else
    let deficits := reconcile w requested_items
    let w' := applyPurchases h deficits w
    let found := toString (requested_items.map (fun it => (it.name, it.quantity_needed)))
    let acts := toString deficits
    let out := save_processing_result source_document extracted_text found acts L
    (Except.ok ⟨out.2.result_id, source_document, extracted_text, found, acts⟩, w', out.1)

/-! ### Helper lemmas -/

theorem likeM_percent_only : ∀ s : List Char, likeM ['%'] s = true := by
  intro s
  induction s with
  | nil => simp [likeM]
  | cons c s ih => simp [likeM, ih]

theorem isPrefixOf_nil_left (s : List Char) : List.isPrefixOf ([] : List Char) s = true := by
  cases s <;> rfl

theorem likeM_plain_percent (q : List Char) (hq : metaFree q = true) :
    ∀ s : List Char, likeM (q ++ ['%']) s = List.isPrefixOf (lowerChars q) (lowerChars s) := by
  induction q with
  | nil =>
      intro s
      simp [likeM_percent_only, lowerChars, isPrefixOf_nil_left]
  | cons a q ih =>
      rw [metaFree, List.all_cons, Bool.and_eq_true, Bool.and_eq_true] at hq
      have ha1 : a ≠ '%' := by
        intro hcontra
        rw [hcontra] at hq
        simp at hq
      have ha2 : a ≠ '_' := by
        intro hcontra
        rw [hcontra] at hq
        simp at hq
      have hq' : metaFree q = true := hq.2
      intro s
      cases s with
      | nil =>
          simp [likeM, lowerChars, ha1, ha2]
      | cons b s =>
          have h1 : likeM (a :: (q ++ ['%'])) (b :: s)
              = ((a.toLower == b.toLower) && likeM (q ++ ['%']) s) := by
            simp [likeM, ha1, ha2]
          simp only [List.cons_append, lowerChars, List.map_cons] at h1 ⊢
          rw [h1, ih hq' s]
          rfl

theorem likeM_percent_cons (p : List Char) :
    ∀ s : List Char, likeM ('%' :: p) s = s.tails.any (fun t => likeM p t) := by
  intro s
  induction s with
  | nil => simp [likeM]
  | cons c s ih => simp [likeM, ih]

theorem tails_map (f : Char → Char) : ∀ s : List Char,
    (s.map f).tails = s.tails.map (List.map f) := by
  intro s
  induction s with
  | nil => rfl
  | cons c s ih => simp [ih]

theorem likeM_pattern_eq_containsSub (q : String) (hq : metaFree q.data = true)
    (s : List Char) :
    likeM (likePattern q) s = containsSub (lowerChars q.data) (lowerChars s) := by
  have hpt : (fun t => likeM (q.data ++ ['%']) t)
      = (fun t => List.isPrefixOf (lowerChars q.data) (lowerChars t)) :=
    funext fun t => likeM_plain_percent q.data hq t
  rw [likePattern, likeM_percent_cons, hpt]
  simp only [containsSub, lowerChars, tails_map, List.any_map]
  rfl

theorem simulate_purchase_snd (h : String → Int) (n : String) (q : Int) (w : Warehouse) :
    (simulate_purchase h n q w).2 = ⟨true, n, q⟩ := by
  rcases hf : w.find? (fun r => r.product_name == n) with _ | x <;>
    simp [simulate_purchase, hf]

theorem simulate_purchase_cons_ne (h : String → Int) (n : String) (q : Int)
    (r : InventoryRecord) (w : Warehouse) (hr : ¬ r.product_name = n) :
    (simulate_purchase h n q (r :: w)).1 = r :: (simulate_purchase h n q w).1 := by
  have hb : (r.product_name == n) = false := by simp [hr]
  have hcons : (r :: w).find? (fun x => x.product_name == n)
      = w.find? (fun x => x.product_name == n) :=
    List.find?_cons_of_neg _ (by simp [hb])
  rcases hf : w.find? (fun x => x.product_name == n) with _ | x
  · simp [simulate_purchase, hcons, hf, hb, hr]
  · simp [simulate_purchase, hcons, hf, hb, hr]

theorem storedQty_cons_ne (n : String) (r : InventoryRecord) (w : Warehouse)
    (hr : ¬ r.product_name = n) : storedQty n (r :: w) = storedQty n w := by
  have hcons : (r :: w).find? (fun x => x.product_name == n)
      = w.find? (fun x => x.product_name == n) :=
    List.find?_cons_of_neg _ (by simp [hr])
  simp [storedQty, hcons]

theorem storedQty_simulate_purchase_same (h : String → Int) (n : String) (q : Int) :
    ∀ w : Warehouse, storedQty n (simulate_purchase h n q w).1 = storedQty n w + q := by
  intro w
  induction w with
  | nil => simp [simulate_purchase, storedQty, List.find?, mkProductId]
  | cons r w ih =>
      by_cases hr : r.product_name = n
      · have hb : (r.product_name == n) = true := by simp [hr]
        have hcons : (r :: w).find? (fun x => x.product_name == n) = some r :=
          List.find?_cons_of_pos _ hb
        simp [simulate_purchase, hcons, storedQty, List.find?, hb, hr]
      · rw [simulate_purchase_cons_ne h n q r w hr, storedQty_cons_ne n r _ hr,
          storedQty_cons_ne n r w hr]
        exact ih

theorem storedQty_applyPurchases_same (h : String → Int) (n : String) :
    ∀ (qs : List Int) (w : Warehouse),
      storedQty n (applyPurchases h (qs.map (fun q => (n, q))) w)
        = storedQty n w + qs.sum := by
  intro qs
  induction qs with
  | nil => intro w; simp [applyPurchases]
  | cons q qs ih =>
      intro w
      have hstep := ih ((simulate_purchase h n q w).1)
      simp only [applyPurchases, List.map_cons, List.foldl_cons] at hstep ⊢
      rw [hstep, storedQty_simulate_purchase_same]
      simp [List.sum_cons]
      omega

theorem quantities_nonneg_simulate_purchase (h : String → Int) (n : String) (q : Int)
    (w : Warehouse) (hw : ∀ r ∈ w, 0 ≤ r.quantity) (hq : 0 < q) :
    ∀ r ∈ (simulate_purchase h n q w).1, 0 ≤ r.quantity := by
  rcases hf : w.find? (fun x => x.product_name == n) with _ | x
  · intro r hrmem
    simp only [simulate_purchase, hf, List.mem_append, List.mem_singleton] at hrmem
    rcases hrmem with hrw | rfl
    · exact hw r hrw
    · exact le_of_lt hq
  · intro r hrmem
    simp only [simulate_purchase, hf, List.mem_map] at hrmem
    obtain ⟨r', hr'w, rfl⟩ := hrmem
    have hx : 0 ≤ x.quantity := hw x (List.mem_of_find?_eq_some hf)
    by_cases hname : (r'.product_name == n) = true
    · have : 0 ≤ x.quantity + q := by omega
      simpa [hname] using this
    · simpa [hname] using hw r' hr'w

theorem quantities_nonneg_applyPurchases (h : String → Int) :
    ∀ (ps : List (String × Int)) (w : Warehouse),
      (∀ r ∈ w, 0 ≤ r.quantity) → (∀ p ∈ ps, 0 < p.2) →
      ∀ r ∈ applyPurchases h ps w, 0 ≤ r.quantity := by
  intro ps
  induction ps with
  | nil =>
      intro w hw _
      simpa [applyPurchases] using hw
  | cons p ps ih =>
      intro w hw hpos
      have hstep := quantities_nonneg_simulate_purchase h p.1 p.2 w hw
        (hpos p (List.mem_cons_self p ps))
      have hrest := ih ((simulate_purchase h p.1 p.2 w).1) hstep
        (fun x hx => hpos x (List.mem_cons_of_mem p hx))
      simpa [applyPurchases] using hrest

theorem check_quantity_nonneg (q : String) (w : Warehouse)
    (hw : ∀ r ∈ w, 0 ≤ r.quantity) : 0 ≤ (check_warehouse_stock q w).quantity := by
  rcases hf : w.find? (fun r => likeM (likePattern q) r.product_name.data) with _ | r
  · simp [check_warehouse_stock, hf]
  · simp only [check_warehouse_stock, hf]
    exact hw r (List.mem_of_find?_eq_some hf)

theorem reconcile_eq_filter_map (w : Warehouse) :
    ∀ items : List RequestedItem,
      reconcile w items
        = (items.filter
            (fun it => (check_warehouse_stock it.name w).quantity < it.quantity_needed)).map
            (fun it => (it.name, it.quantity_needed - (check_warehouse_stock it.name w).quantity)) := by
  intro items
  induction items with
  | nil => rfl
  | cons it rest ih =>
      by_cases hc : (check_warehouse_stock it.name w).quantity < it.quantity_needed
      · simp [reconcile, hc, List.filter_cons, ih]
      · simp [reconcile, hc, List.filter_cons, ih]

/-! ### Concrete instances used in counterexamples and witnesses -/

/-- A fixed hash function standing for one process run's seeded Python
`hash`. -/
def hash0 : String → Int := fun _ => 0

/-- A concrete warehouse: the script's own seed row `('P001', 'Penne', 100)`. -/
def wPenne : Warehouse := [⟨"P001", "Penne", 100⟩]

/-! ### Claim theorems -/

/-- C1 (counterexample): at the warehouse `{"Penne": 100}`,
`simulate_purchase("Penne", -5)` does not fail — it reports success — and it
changes the store, leaving `Penne` at 95. -/
theorem C1_counterexample :
    (simulate_purchase hash0 "Penne" (-5) wPenne).2.success = true
    ∧ (simulate_purchase hash0 "Penne" (-5) wPenne).1 ≠ wPenne
    ∧ storedQty "Penne" (simulate_purchase hash0 "Penne" (-5) wPenne).1 = 95 := by
  decide

/-- C1 (amended): `simulate_purchase` performs no quantity validation: for
every quantity `q ≤ 0` it still reports success, and the stock stored under
the name moves by exactly `q` (an existing record's quantity is incremented
by `q`; a missing name is inserted with quantity `q`). -/
theorem C1_no_quantity_validation (h : String → Int) (n : String) (q : Int)
    (w : Warehouse) (_hq : q ≤ 0) :
    (simulate_purchase h n q w).2.success = true
    ∧ storedQty n (simulate_purchase h n q w).1 = storedQty n w + q := by
  refine ⟨?_, storedQty_simulate_purchase_same h n q w⟩
  rw [simulate_purchase_snd]

/-- C1 (witness): the amended statement instantiated at quantity -5 on the
concrete warehouse. -/
theorem C1_witness :
    ((-5 : Int) ≤ 0)
    ∧ ((simulate_purchase hash0 "Penne" (-5) wPenne).2.success = true
      ∧ storedQty "Penne" (simulate_purchase hash0 "Penne" (-5) wPenne).1
          = storedQty "Penne" wPenne + (-5)) :=
  ⟨by decide, C1_no_quantity_validation hash0 "Penne" (-5) wPenne (by decide)⟩

/-- C2 (counterexample): the state reached from the empty store by the single
call `simulate_purchase("A", -5)` holds a record with quantity -5, and
`check_warehouse_stock("A")` reports that negative quantity. -/
theorem C2_counterexample :
    applyPurchases hash0 [("A", -5)] [] = [⟨"PROD_0", "A", -5⟩]
    ∧ (check_warehouse_stock "A" (applyPurchases hash0 [("A", -5)] [])).quantity = -5 := by
  have h1 : applyPurchases hash0 [("A", -5)] [] = [⟨"PROD_0", "A", -5⟩] := by decide
  refine ⟨h1, ?_⟩
  rw [h1]
  simp [check_warehouse_stock, likePattern, likeM, List.find?]

/-- C2 (amended): every state produced from the empty store by a sequence of
`simulate_purchase` calls with positive quantities has only non-negative
quantities, and `check_warehouse_stock` never reports a negative quantity on
such a state. -/
theorem C2_nonneg_invariant (h : String → Int) (ps : List (String × Int))
    (hpos : ∀ p ∈ ps, 0 < p.2) :
    (∀ r ∈ applyPurchases h ps [], 0 ≤ r.quantity)
    ∧ ∀ q, 0 ≤ (check_warehouse_stock q (applyPurchases h ps [])).quantity := by
  have hrec := quantities_nonneg_applyPurchases h ps [] (by simp) hpos
  exact ⟨hrec, fun q => check_quantity_nonneg q _ hrec⟩

/-- C2 (witness): the amended statement instantiated at the one-call
sequence `[("A", 3)]`. -/
theorem C2_witness :
    (∀ p ∈ [("A", (3 : Int))], 0 < p.2)
    ∧ ((∀ r ∈ applyPurchases hash0 [("A", 3)] [], 0 ≤ r.quantity)
      ∧ ∀ q, 0 ≤ (check_warehouse_stock q (applyPurchases hash0 [("A", 3)] [])).quantity) :=
  ⟨by decide, C2_nonneg_invariant hash0 [("A", 3)] (by decide)⟩

/-- C3: for every sequence of `simulate_purchase` calls with positive
quantities all targeting the same name, the final stored quantity for that
name equals the initial stored quantity (0 when the name is unseen — the
first call then creates the record) plus the sum of the purchased
quantities. -/
theorem C3_final_quantity_is_sum (h : String → Int) (w : Warehouse) (n : String)
    (qs : List Int) (_hpos : ∀ q ∈ qs, 0 < q) :
    storedQty n (applyPurchases h (qs.map (fun q => (n, q))) w)
      = storedQty n w + qs.sum :=
  storedQty_applyPurchases_same h n qs w

/-- C3 (witness): two purchases of 3 and 4 units of `Penne` on the concrete
warehouse end with `100 + 7` units. -/
theorem C3_witness :
    (∀ q ∈ [(3 : Int), 4], 0 < q)
    ∧ storedQty "Penne"
        (applyPurchases hash0 ([(3 : Int), 4].map (fun q => ("Penne", q))) wPenne)
        = storedQty "Penne" wPenne + [(3 : Int), 4].sum :=
  ⟨by decide, C3_final_quantity_is_sum hash0 wPenne "Penne" [3, 4] (by decide)⟩

/-- C4 (counterexample): at the warehouse `{"Penne": 100}`,
`simulate_purchase("Penne", 20)` reports quantity 20, which is not the
post-update stock level 120. -/
theorem C4_counterexample :
    (simulate_purchase hash0 "Penne" 20 wPenne).2.quantity
      ≠ storedQty "Penne" (simulate_purchase hash0 "Penne" 20 wPenne).1 := by
  decide

/-- C4 (amended): `simulate_purchase` returns a confirmation whose quantity
field is the input quantity `q` (not the post-update record), while the
post-update stock equals the prior stock plus `q`; the two coincide exactly
when the prior stock was 0, in particular when the record was just
created. -/
theorem C4_returns_input_quantity (h : String → Int) (n : String) (q : Int)
    (w : Warehouse) :
    (simulate_purchase h n q w).2 = ⟨true, n, q⟩
    ∧ storedQty n (simulate_purchase h n q w).1 = storedQty n w + q :=
  ⟨simulate_purchase_snd h n q w, storedQty_simulate_purchase_same h n q w⟩

/-- C5 (counterexample): the claim fails for queried names holding `LIKE`
metacharacters: at `{"Penne": 100}` the query `"P%e"` is reported available
(`%` acts as a wildcard in the SQL pattern) even though no stored name
contains `"P%e"` as a case-insensitive substring. -/
theorem C5_counterexample :
    (check_warehouse_stock "P%e" wPenne).available = true
    ∧ containsSub (lowerChars "P%e".data) (lowerChars "Penne".data) = false := by
  constructor
  · simp [check_warehouse_stock, wPenne, likePattern, likeM, List.find?]
  · decide

/-- C5 (amended): for every queried name free of the `LIKE` metacharacters
`%` and `_`, `check_warehouse_stock` coincides with the spec-side lookup:
it returns the first record (in insertion order) whose `product_name`
contains the queried name as a case-insensitive substring, and reports
unavailable with quantity 0 when no record matches. -/
theorem C5_substring_first_match (q : String) (w : Warehouse)
    (hq : metaFree q.data = true) :
    check_warehouse_stock q w = lookup_spec q w := by
  have hpred : (fun r : InventoryRecord => likeM (likePattern q) r.product_name.data)
      = (fun r : InventoryRecord =>
          containsSub (lowerChars q.data) (lowerChars r.product_name.data)) :=
    funext fun r => likeM_pattern_eq_containsSub q hq r.product_name.data
  simp only [check_warehouse_stock, lookup_spec, hpred]

/-- C5 (witness): the amended statement instantiated at the
metacharacter-free query `"enne"` on the concrete warehouse. -/
theorem C5_witness :
    metaFree "enne".data = true
    ∧ check_warehouse_stock "enne" wPenne = lookup_spec "enne" wPenne :=
  ⟨by decide, C5_substring_first_match "enne" wPenne (by decide)⟩

/-- C6: `product_id` is `PROD_{hash(name)}` where `hash` is Python's
per-process seeded string hash: two process runs (modelled as two hash
functions) can assign different ids to the same name, and within one run
two distinct names whose hashes collide receive the same id — so the id is
neither stable nor unique as the spec requires. -/
theorem C6_product_id_hash_dependent :
    ∃ (h₁ h₂ : String → Int) (a b : String),
      h₁ a ≠ h₂ a ∧ mkProductId h₁ a ≠ mkProductId h₂ a
      ∧ a ≠ b ∧ h₁ a = h₁ b ∧ mkProductId h₁ a = mkProductId h₁ b := by
  refine ⟨fun _ => 0, fun _ => 1, "Penne", "Matite", ?_, ?_, ?_, ?_, ?_⟩ <;> decide

/-- C7: on any ledger whose AUTOINCREMENT counter bounds all assigned ids,
`save_processing_result` assigns an id strictly greater than every existing
id, appends exactly one row carrying that id (so the returned `result_id`
is the id of the row just inserted), preserves the counter invariant, and a
second append — in particular a second run with identical inputs — returns
a distinct id. -/
theorem C7_ledger_ids_monotone (L : Ledger) (f t i p : String) (hL : LedgerInv L) :
    (∀ r ∈ L.rows, r.id < (save_processing_result f t i p L).2.result_id)
    ∧ (save_processing_result f t i p L).1.rows
        = L.rows ++ [⟨(save_processing_result f t i p L).2.result_id, f, t, i, p⟩]
    ∧ LedgerInv (save_processing_result f t i p L).1
    ∧ ∀ f2 t2 i2 p2 : String,
        (save_processing_result f2 t2 i2 p2
            (save_processing_result f t i p L).1).2.result_id
          ≠ (save_processing_result f t i p L).2.result_id := by
  refine ⟨fun r hr => ?_, rfl, ?_, fun f2 t2 i2 p2 => ?_⟩
  · have := hL r hr
    simp only [save_processing_result]
    omega
  · intro r hr
    simp only [save_processing_result, List.mem_append, List.mem_singleton] at hr ⊢
    rcases hr with hr | rfl
    · have := hL r hr
      omega
    · simp
  · simp only [save_processing_result]
    omega

/-- C7 (witness): the statement instantiated at the empty ledger. -/
theorem C7_witness :
    LedgerInv ⟨0, []⟩
    ∧ ((∀ r ∈ (⟨0, []⟩ : Ledger).rows,
          r.id < (save_processing_result "a" "b" "c" "d" ⟨0, []⟩).2.result_id)
      ∧ (save_processing_result "a" "b" "c" "d" ⟨0, []⟩).1.rows
          = (⟨0, []⟩ : Ledger).rows
            ++ [⟨(save_processing_result "a" "b" "c" "d" ⟨0, []⟩).2.result_id,
                  "a", "b", "c", "d"⟩]
      ∧ LedgerInv (save_processing_result "a" "b" "c" "d" ⟨0, []⟩).1
      ∧ ∀ f2 t2 i2 p2 : String,
          (save_processing_result f2 t2 i2 p2
              (save_processing_result "a" "b" "c" "d" ⟨0, []⟩).1).2.result_id
            ≠ (save_processing_result "a" "b" "c" "d" ⟨0, []⟩).2.result_id) :=
  ⟨fun r hr => absurd hr (List.not_mem_nil r),
   C7_ledger_ids_monotone ⟨0, []⟩ "a" "b" "c" "d"
     (fun r hr => absurd hr (List.not_mem_nil r))⟩

/-- C8: for requested items with positive needed quantities, the reconciler
output is exactly the in-deficit items in input order — the filter keeps
precisely the items whose current stock (0 when absent) is below
`quantity_needed`, each mapped to its deficit
`quantity_needed - current` — so satisfied items never appear and relative
order is preserved. -/
theorem C8_reconciler_deficits (w : Warehouse) (items : List RequestedItem)
    (_hpos : ∀ it ∈ items, 0 < it.quantity_needed) :
    reconcile w items
      = (items.filter
          (fun it => (check_warehouse_stock it.name w).quantity < it.quantity_needed)).map
          (fun it => (it.name, it.quantity_needed - (check_warehouse_stock it.name w).quantity)) :=
  reconcile_eq_filter_map w items

/-- C8 (witness): the statement instantiated at the spec's end-to-end
scenario request `[("Penne", 50), ("Matite", 20)]` on `{"Penne": 100}`. -/
theorem C8_witness :
    (∀ it ∈ [(⟨"Penne", 50⟩ : RequestedItem), ⟨"Matite", 20⟩], 0 < it.quantity_needed)
    ∧ reconcile wPenne [(⟨"Penne", 50⟩ : RequestedItem), ⟨"Matite", 20⟩]
        = (([(⟨"Penne", 50⟩ : RequestedItem), ⟨"Matite", 20⟩].filter
            (fun it => (check_warehouse_stock it.name wPenne).quantity < it.quantity_needed)).map
            (fun it => (it.name,
              it.quantity_needed - (check_warehouse_stock it.name wPenne).quantity))) :=
  ⟨by decide, C8_reconciler_deficits wPenne _ (by decide)⟩

/-- C9: calling the workflow runner with an empty `requested_items` list
fails with `EmptyRequest` and returns both the warehouse and the ledger
unchanged. -/
theorem C9_empty_request_no_side_effects (h : String → Int)
    (source_document extracted_text : String) (w : Warehouse) (L : Ledger) :
    run h source_document extracted_text [] w L
      = (Except.error WfError.EmptyRequest, w, L) := rfl

/-- C10: lookup and purchase disagree on name matching: at `{"Penne": 100}`
the name `"enne"` is reported available by `check_warehouse_stock`
(substring match), yet `simulate_purchase("enne", 5)` does not increment
the matched `Penne` row — it inserts a brand-new `enne` row and leaves
`Penne` at 100, because purchase matches by exact equality (no row named
exactly `"enne"` existed). -/
theorem C10_lookup_purchase_mismatch :
    (check_warehouse_stock "enne" wPenne).available = true
    ∧ (simulate_purchase hash0 "enne" 5 wPenne).1
        = wPenne ++ [⟨"PROD_0", "enne", 5⟩]
    ∧ storedQty "Penne" (simulate_purchase hash0 "enne" 5 wPenne).1 = 100
    ∧ storedQty "enne" wPenne = 0 := by
  refine ⟨?_, by decide, by decide, by decide⟩
  simp [check_warehouse_stock, wPenne, likePattern, likeM, List.find?]
